import Mathlib

/-!
Verification of the expressions library (src/expressions/expressions.py).

The development embeds, in order:
* the Python value universe needed by the Terminal constructors;
* the expression node types with their precedences and display symbols
  (classes Expression, Operator, Add, Sub, Mul, Div, Pow, Terminal,
  Number, Symbol);
* the operator-overload literal-lifting dispatch (the dunder methods on
  Expression together with the left-then-right dispatch Python performs
  for a binary arithmetic operation);
* infix rendering (Operator.str / Terminal.str);
* the differentiation rule table (the singledispatch function
  differentiate and its registered rules), with the mixed
  float-or-Expression arithmetic the rules perform;
* the generic memoized post-order traversal postvisitor, embedded as a
  small-step loop over an arena of node identities, so that identity-based
  sharing (the same node instance referenced by several parents) is
  representable.
-/

namespace Expressions

/-- PyVal is the universe of Python values that flow into the Terminal
constructors: numbers (int or float), strings, and a representative
non-numeric non-string value (modelling e.g. None), enough to express
the isinstance checks Number.init and Symbol.init perform. Floats are
represented exactly as rationals; every float literal the library
manipulates (0.0, 1.0, small integers) is exactly representable. -/
inductive PyVal where
  | int (n : ℤ)
  | float (q : ℚ)
  | str (s : String)
  | none
deriving DecidableEq

/-- The isinstance(value, numbers.Number) check: ints and floats are
numbers, strings and None are not. -/
def PyVal.isNumber : PyVal → Bool
  | .int _ => true
  | .float _ => true
  | .str _ => false
  | .none => false

/-- Python str() on a terminal value, as used by Terminal.str. For an
int it is the decimal form; for a float with integral value it is the
integer followed by ".0" (exact for every float the library produces);
non-integral rationals fall back to their rational rendering, which no
value reachable in this development exercises. -/
def PyVal.pystr : PyVal → String
  | .int n => toString n
  | .float q => if q.den = 1 then toString q.num ++ ".0" else toString q
  | .str s => s
  | .none => "None"

/-- The Python exceptions the library raises: TypeError from the
Terminal constructors, NotImplementedError from the differentiate
default rule, IndexError from subscripting a too-short operand list. -/
inductive PyError where
  | typeError (msg : String)
  | notImplementedError (msg : String)
  | indexError
deriving DecidableEq

/-- Expr is the closed set of node kinds: the two Terminal variants
Number and Symbol (arity 0) and the five binary Operator variants.
Operands are stored in written order. -/
inductive Expr where
  | number (v : PyVal)
  | symbol (s : String)
  | add (a b : Expr)
  | sub (a b : Expr)
  | mul (a b : Expr)
  | div (a b : Expr)
  | pow (a b : Expr)
deriving DecidableEq

/-- Class attribute precedence: Add/Sub = 0, Mul/Div = 1, Pow = 2,
Terminal = 3. -/
def Expr.precedence : Expr → Nat
  | .number _ => 3
  | .symbol _ => 3
  | .add _ _ => 0
  | .sub _ _ => 0
  | .mul _ _ => 1
  | .div _ _ => 1
  | .pow _ _ => 2

/-- The local function parentheses inside Operator.str: wrap the
child's rendering in parentheses when the child's precedence is
strictly below the parent's. -/
def parensIfBelow (parentPrec : Nat) (child : Expr) (rendered : String) : String :=
  if child.precedence < parentPrec then "(" ++ rendered ++ ")" else rendered

/-- Operator.str and Terminal.str: a terminal renders its value (or
name); an operator joins the renderings of its two operands, each
wrapped by parensIfBelow, with the operator's display symbol padded by
single spaces (the f-string " {symbol} " join). -/
def Expr.render : Expr → String
  | .number v => v.pystr
  | .symbol s => s
  | .add a b => parensIfBelow 0 a a.render ++ " + " ++ parensIfBelow 0 b b.render
  | .sub a b => parensIfBelow 0 a a.render ++ " - " ++ parensIfBelow 0 b b.render
  | .mul a b => parensIfBelow 1 a a.render ++ " * " ++ parensIfBelow 1 b b.render
  | .div a b => parensIfBelow 1 a a.render ++ " / " ++ parensIfBelow 1 b b.render
  | .pow a b => parensIfBelow 2 a a.render ++ " ^ " ++ parensIfBelow 2 b b.render

/-- renderSpec follows the spec's words for render, independently of
the code's helper: when rendering a child, wrap it in parentheses iff
the child's precedence level is strictly lower than the parent's
precedence level; same-or-higher precedence children are left bare. -/
def renderSpec : Expr → String
  | .number v => v.pystr
  | .symbol s => s
  | .add a b =>
      (if a.precedence < 0 then "(" ++ renderSpec a ++ ")" else renderSpec a) ++ " + " ++
      (if b.precedence < 0 then "(" ++ renderSpec b ++ ")" else renderSpec b)
  | .sub a b =>
      (if a.precedence < 0 then "(" ++ renderSpec a ++ ")" else renderSpec a) ++ " - " ++
      (if b.precedence < 0 then "(" ++ renderSpec b ++ ")" else renderSpec b)
  | .mul a b =>
      (if a.precedence < 1 then "(" ++ renderSpec a ++ ")" else renderSpec a) ++ " * " ++
      (if b.precedence < 1 then "(" ++ renderSpec b ++ ")" else renderSpec b)
  | .div a b =>
      (if a.precedence < 1 then "(" ++ renderSpec a ++ ")" else renderSpec a) ++ " / " ++
      (if b.precedence < 1 then "(" ++ renderSpec b ++ ")" else renderSpec b)
  | .pow a b =>
      (if a.precedence < 2 then "(" ++ renderSpec a ++ ")" else renderSpec a) ++ " ^ " ++
      (if b.precedence < 2 then "(" ++ renderSpec b ++ ")" else renderSpec b)

/-- Number.init: raises TypeError unless the value satisfies
isinstance(value, numbers.Number); otherwise stores the value. -/
def numberNew (v : PyVal) : Except PyError Expr :=
  if v.isNumber then .ok (.number v)
  else .error (.typeError "Value passed to Number should be a number.")

/-- Symbol.init: raises TypeError unless the value is a str; otherwise
stores the name. -/
def symbolNew (v : PyVal) : Except PyError Expr :=
  match v with
  | .str s => .ok (.symbol s)
  | _ => .error (.typeError "Value passed to Symbol should be a string.")

/-- An operand position of a Python binary arithmetic operation: either
an Expression node or a raw (non-Expression) Python value. -/
inductive Operand where
  | expr (e : Expr)
  | raw (v : PyVal)
deriving DecidableEq

/-- Python evaluation of left + right over Expression's add hooks:
when the left side is an Expression its dunder add runs (building
Add(left, right), lifting a raw numeric right-hand side to Number);
otherwise, when the right side is an Expression, its reflected hook
runs (building Add(left-lifted, right)); a non-numeric raw partner, or
two raw values, falls outside the Expression model (none). -/
def pyAddOp : Operand → Operand → Option Expr
  | .expr a, .expr b => some (.add a b)
  | .expr a, .raw v => if v.isNumber then some (.add a (.number v)) else Option.none
  | .raw v, .expr b => if v.isNumber then some (.add (.number v) b) else Option.none
  | .raw _, .raw _ => Option.none

/-- Python evaluation of left - right over Expression's sub hooks. -/
def pySubOp : Operand → Operand → Option Expr
  | .expr a, .expr b => some (.sub a b)
  | .expr a, .raw v => if v.isNumber then some (.sub a (.number v)) else Option.none
  | .raw v, .expr b => if v.isNumber then some (.sub (.number v) b) else Option.none
  | .raw _, .raw _ => Option.none

/-- Python evaluation of left * right over Expression's mul hooks. -/
def pyMulOp : Operand → Operand → Option Expr
  | .expr a, .expr b => some (.mul a b)
  | .expr a, .raw v => if v.isNumber then some (.mul a (.number v)) else Option.none
  | .raw v, .expr b => if v.isNumber then some (.mul (.number v) b) else Option.none
  | .raw _, .raw _ => Option.none

/-- Python evaluation of left / right over Expression's truediv hooks. -/
def pyDivOp : Operand → Operand → Option Expr
  | .expr a, .expr b => some (.div a b)
  | .expr a, .raw v => if v.isNumber then some (.div a (.number v)) else Option.none
  | .raw v, .expr b => if v.isNumber then some (.div (.number v) b) else Option.none
  | .raw _, .raw _ => Option.none

/-- Python evaluation of left ** right over Expression's pow hooks. -/
def pyPowOp : Operand → Operand → Option Expr
  | .expr a, .expr b => some (.pow a b)
  | .expr a, .raw v => if v.isNumber then some (.pow a (.number v)) else Option.none
  | .raw v, .expr b => if v.isNumber then some (.pow (.number v) b) else Option.none
  | .raw _, .raw _ => Option.none

/-- DVal is the type of values the differentiation rules produce and
consume: a plain Python float (the 0.0/1.0 terminal results and their
float-arithmetic combinations) or an Expression node. -/
inductive DVal where
  | float (q : ℚ)
  | expr (e : Expr)
deriving DecidableEq

/-- DVal.isExpr: whether the value is structurally an Expression node. -/
def DVal.isExpr : DVal → Bool
  | .float _ => false
  | .expr _ => true

/-- Python x + y where each side is a float result or an Expression:
float + float is float addition; a float beside an Expression goes
through the Expression add hooks, lifting the float to Number;
Expression + Expression builds Add directly. Order is preserved. -/
def dvAdd : DVal → DVal → DVal
  | .float a, .float b => .float (a + b)
  | .float a, .expr e => .expr (.add (.number (.float a)) e)
  | .expr e, .float b => .expr (.add e (.number (.float b)))
  | .expr a, .expr b => .expr (.add a b)

/-- Python x - y over the same dynamic dispatch as dvAdd. -/
def dvSub : DVal → DVal → DVal
  | .float a, .float b => .float (a - b)
  | .float a, .expr e => .expr (.sub (.number (.float a)) e)
  | .expr e, .float b => .expr (.sub e (.number (.float b)))
  | .expr a, .expr b => .expr (.sub a b)

/-- Python x * y over the same dynamic dispatch as dvAdd. -/
def dvMul : DVal → DVal → DVal
  | .float a, .float b => .float (a * b)
  | .float a, .expr e => .expr (.mul (.number (.float a)) e)
  | .expr e, .float b => .expr (.mul e (.number (.float b)))
  | .expr a, .expr b => .expr (.mul a b)

/-- Python x / y over the same dynamic dispatch as dvAdd. The
float / float case is rational division; in the one rule that divides
(the quotient rule) the numerator is always an Expression, so that case
is unreachable there. -/
def dvDiv : DVal → DVal → DVal
  | .float a, .float b => .float (a / b)
  | .float a, .expr e => .expr (.div (.number (.float a)) e)
  | .expr e, .float b => .expr (.div e (.number (.float b)))
  | .expr a, .expr b => .expr (.div a b)

/-- The singledispatch rule table differentiate: the step function the
traversal applies to a node e with the already-reduced child results o
and the keyword context var. Rules:
* Number: 0.0;
* Symbol: 1.0 when the name equals var else 0.0;
* Add: o[0] + o[1];
* Mul: (o[0] * operands[1]) + (o[1] * operands[0]);
* Div: ((o[0] * operands[1]) - (operands[0] * o[1])) / (operands[1] ** 2),
  where operands[1] ** 2 is Expression pow applied to the int literal 2;
* Pow: o[0] * operands[1] * (operands[0] ** (operands[1] - 1)), where
  operands[1] - 1 is Expression sub applied to the int literal 1 (o[1]
  is never read);
* any unregistered kind (Sub) falls to the base implementation, which
  raises NotImplementedError naming the class.
Subscripting a too-short o raises IndexError, as in Python. -/
def diffStep (e : Expr) (o : List DVal) (var : String) : Except PyError DVal :=
  match e with
  | .number _ => .ok (.float 0)
  | .symbol s => .ok (.float (if s = var then 1 else 0))
  | .add _ _ =>
      match o with
      | d0 :: d1 :: _ => .ok (dvAdd d0 d1)
      | _ => .error .indexError
  | .sub _ _ => .error (.notImplementedError "Cannot differentiate Sub")
  | .mul a b =>
      match o with
      | d0 :: d1 :: _ => .ok (dvAdd (dvMul d0 (.expr b)) (dvMul d1 (.expr a)))
      | _ => .error .indexError
  | .div a b =>
      match o with
      | d0 :: d1 :: _ =>
          .ok (dvDiv (dvSub (dvMul d0 (.expr b)) (dvMul (.expr a) d1))
                (.expr (.pow b (.number (.int 2)))))
      | _ => .error .indexError
  | .pow a b =>
      match o with
      | d0 :: _ =>
          .ok (dvMul (dvMul d0 (.expr b)) (.expr (.pow a (.sub b (.number (.int 1))))))
      | _ => .error .indexError

/-- Sequencing of the two child reductions before the parent's rule: a
child's raised exception propagates; with both children reduced, the
parent's rule runs on the cached child results in operand order. -/
def diffChildren (e : Expr) (ra rb : Except PyError DVal) (var : String) :
    Except PyError DVal :=
  match ra, rb with
  | .ok da, .ok db => diffStep e [da, db] var
  | .error err, _ => .error err
  | .ok _, .error err => .error err

/-- differentiateT is the denotation of postvisitor(expr, differentiate,
var=var) on a tree-shaped expression: children are reduced first
(post-order), then the dispatched rule is applied to the cached child
results in operand order. The step rules are pure, so the identity
cache of the traversal only avoids recomputation and cannot change the
returned value. -/
def differentiateT : Expr → String → Except PyError DVal
  | .number v, var => diffStep (.number v) [] var
  | .symbol s, var => diffStep (.symbol s) [] var
  | .add a b, var => diffChildren (.add a b) (differentiateT a var) (differentiateT b var) var
  | .sub a b, var => diffChildren (.sub a b) (differentiateT a var) (differentiateT b var) var
  | .mul a b, var => diffChildren (.mul a b) (differentiateT a var) (differentiateT b var) var
  | .div a b, var => diffChildren (.div a b) (differentiateT a var) (differentiateT b var) var
  | .pow a b, var => diffChildren (.pow a b) (differentiateT a var) (differentiateT b var) var

/-- render(differentiate(e, var)): the str() of the differentiation
result, rendering a plain float result the way a Number value renders;
none when differentiation raises. -/
def diffRender (e : Expr) (var : String) : Option String :=
  match differentiateT e var with
  | .ok (.expr d) => some d.render
  | .ok (.float q) => some (PyVal.float q).pystr
  | .error _ => Option.none

/-- containsSub e: whether a Sub node occurs anywhere in e. -/
def containsSub : Expr → Bool
  | .number _ => false
  | .symbol _ => false
  | .sub _ _ => true
  | .add a b => containsSub a || containsSub b
  | .mul a b => containsSub a || containsSub b
  | .div a b => containsSub a || containsSub b
  | .pow a b => containsSub a || containsSub b

/-- containsMDP e: whether a Mul, Div or Pow node occurs anywhere in e. -/
def containsMDP : Expr → Bool
  | .number _ => false
  | .symbol _ => false
  | .add a b => containsMDP a || containsMDP b
  | .sub a b => containsMDP a || containsMDP b
  | .mul _ _ => true
  | .div _ _ => true
  | .pow _ _ => true

/-- containsDivPow e: whether a Div or Pow node occurs anywhere in e. -/
def containsDivPow : Expr → Bool
  | .number _ => false
  | .symbol _ => false
  | .add a b => containsDivPow a || containsDivPow b
  | .sub a b => containsDivPow a || containsDivPow b
  | .mul a b => containsDivPow a || containsDivPow b
  | .div _ _ => true
  | .pow _ _ => true

/-- isTerminalNode e: whether e is a bare Number or Symbol leaf. -/
def Expr.isTerminalNode : Expr → Bool
  | .number _ => true
  | .symbol _ => true
  | _ => false

/-- PVState is the loop state of postvisitor over an arena of node
identities: node instances are arena indices (two structurally equal
but separately constructed nodes get distinct indices, while one shared
instance keeps a single index), so dictionary keying by object identity
is keying by index. stack holds pending indices with the top at the
head (Python appends to and pops from the end of its list). visited is
the memoization dictionary. calls is the trace of invocations of the
step function: for each invocation, the node index together with the
per-operand cached results looked up at invocation time. -/
structure PVState (V : Type) where
  stack : List Nat
  visited : Nat → Option V
  calls : List (Nat × List (Option V))
deriving Nonempty

/-- One iteration of the while loop of postvisitor. ops gives each
node's operand list (child indices, in order, duplicates kept exactly
as the operand tuple holds them); fn is the reduction step, receiving
the node and its children's cached results in operand order. Pop e;
collect its operands missing from visited (the for loop, keeping
duplicates); if any are missing, push e back and then the missing
children (so the last-listed child is popped first); otherwise invoke
fn on the operands' cached results in operand order and store the
result under e, recording the invocation in the trace. -/
def pvStep (ops : Nat → List Nat) (fn : Nat → List V → V) (st : PVState V) :
    PVState V :=
  match st.stack with
  | [] => st
  | e :: rest =>
      let uc := (ops e).filter (fun o => (st.visited o).isNone)
      if uc = [] then
        let args := (ops e).map st.visited
        ⟨rest,
         fun o => if o = e then some (fn e args.reduceOption) else st.visited o,
         st.calls ++ [(e, args)]⟩
      else
        ⟨uc.reverse ++ e :: rest, st.visited, st.calls⟩

/-- pvRun iterates pvStep until the stack is empty, bounded by fuel;
the source loop terminates on every acyclic expression structure, which
a large enough fuel realizes. -/
def pvRun (ops : Nat → List Nat) (fn : Nat → List V → V) :
    Nat → PVState V → PVState V
  | 0, st => st
  | fuel + 1, st => if st.stack = [] then st else pvRun ops fn fuel (pvStep ops fn st)

/-- The initial loop state: the root pushed, nothing visited, no calls. -/
def pvStart (root : Nat) : PVState V := ⟨[root], fun _ => Option.none, []⟩

/-- postvisitorRun: the loop state after running postvisitor(root, fn)
for at most fuel iterations. -/
def postvisitorRun (ops : Nat → List Nat) (fn : Nat → List V → V)
    (root fuel : Nat) : PVState V :=
  pvRun ops fn fuel (pvStart root)

/-- postvisitor's return value visited[expr]: the cached result of the
root (none would be Python's KeyError, impossible with enough fuel). -/
def postvisitorResult (ops : Nat → List Nat) (fn : Nat → List V → V)
    (root fuel : Nat) : Option V :=
  (postvisitorRun ops fn root fuel).visited root

/-- The arena of x = symbol("x"); e = mul(x, x): index 0 is the single
shared Symbol instance with no operands, index 1 the Mul node whose
operand tuple references instance 0 twice. -/
def opsSharedMul : Nat → List Nat := fun n => if n = 1 then [0, 0] else []

lemma diffChildren_err_left (e : Expr) (err : PyError) (rb : Except PyError DVal)
    (var : String) : diffChildren e (.error err) rb var = .error err := by
  cases rb <;> rfl

lemma diffChildren_err_right (e : Expr) (da : DVal) (err : PyError) (var : String) :
    diffChildren e (.ok da) (.error err) var = .error err := rfl

lemma diffChildren_ok (e : Expr) (da db : DVal) (var : String) :
    diffChildren e (.ok da) (.ok db) var = diffStep e [da, db] var := rfl

lemma diff_error_shape : ∀ (e : Expr) (var : String) (err : PyError),
    differentiateT e var = .error err →
    err = .notImplementedError "Cannot differentiate Sub" := by
  intro e
  induction e with
  | number v => intro var err h; simp [differentiateT, diffStep] at h
  | symbol s => intro var err h; simp [differentiateT, diffStep] at h
  | add a b iha ihb =>
      intro var err h
      simp only [differentiateT] at h
      cases ha : differentiateT a var with
      | error e1 =>
          rw [ha, diffChildren_err_left] at h
          simp only [Except.error.injEq] at h
          exact h ▸ iha var e1 ha
      | ok da =>
          cases hb : differentiateT b var with
          | error e2 =>
              rw [ha, hb, diffChildren_err_right] at h
              simp only [Except.error.injEq] at h
              exact h ▸ ihb var e2 hb
          | ok db =>
              rw [ha, hb, diffChildren_ok] at h
              simp [diffStep] at h
  | sub a b iha ihb =>
      intro var err h
      simp only [differentiateT] at h
      cases ha : differentiateT a var with
      | error e1 =>
          rw [ha, diffChildren_err_left] at h
          simp only [Except.error.injEq] at h
          exact h ▸ iha var e1 ha
      | ok da =>
          cases hb : differentiateT b var with
          | error e2 =>
              rw [ha, hb, diffChildren_err_right] at h
              simp only [Except.error.injEq] at h
              exact h ▸ ihb var e2 hb
          | ok db =>
              rw [ha, hb, diffChildren_ok] at h
              simp only [diffStep, Except.error.injEq] at h
              exact h.symm
  | mul a b iha ihb =>
      intro var err h
      simp only [differentiateT] at h
      cases ha : differentiateT a var with
      | error e1 =>
          rw [ha, diffChildren_err_left] at h
          simp only [Except.error.injEq] at h
          exact h ▸ iha var e1 ha
      | ok da =>
          cases hb : differentiateT b var with
          | error e2 =>
              rw [ha, hb, diffChildren_err_right] at h
              simp only [Except.error.injEq] at h
              exact h ▸ ihb var e2 hb
          | ok db =>
              rw [ha, hb, diffChildren_ok] at h
              simp [diffStep] at h
  | div a b iha ihb =>
      intro var err h
      simp only [differentiateT] at h
      cases ha : differentiateT a var with
      | error e1 =>
          rw [ha, diffChildren_err_left] at h
          simp only [Except.error.injEq] at h
          exact h ▸ iha var e1 ha
      | ok da =>
          cases hb : differentiateT b var with
          | error e2 =>
              rw [ha, hb, diffChildren_err_right] at h
              simp only [Except.error.injEq] at h
              exact h ▸ ihb var e2 hb
          | ok db =>
              rw [ha, hb, diffChildren_ok] at h
              simp [diffStep] at h
  | pow a b iha ihb =>
      intro var err h
      simp only [differentiateT] at h
      cases ha : differentiateT a var with
      | error e1 =>
          rw [ha, diffChildren_err_left] at h
          simp only [Except.error.injEq] at h
          exact h ▸ iha var e1 ha
      | ok da =>
          cases hb : differentiateT b var with
          | error e2 =>
              rw [ha, hb, diffChildren_err_right] at h
              simp only [Except.error.injEq] at h
              exact h ▸ ihb var e2 hb
          | ok db =>
              rw [ha, hb, diffChildren_ok] at h
              simp [diffStep] at h

lemma diff_total : ∀ (e : Expr) (var : String), containsSub e = false →
    ∃ v, differentiateT e var = .ok v := by
  intro e
  induction e with
  | number v => intro var _; exact ⟨.float 0, rfl⟩
  | symbol s => intro var _; exact ⟨.float (if s = var then 1 else 0), rfl⟩
  | sub a b iha ihb => intro var h; simp [containsSub] at h
  | add a b iha ihb =>
      intro var h
      simp only [containsSub, Bool.or_eq_false_iff] at h
      obtain ⟨da, hda⟩ := iha var h.1
      obtain ⟨db, hdb⟩ := ihb var h.2
      refine ⟨dvAdd da db, ?_⟩
      simp only [differentiateT]
      rw [hda, hdb, diffChildren_ok]; rfl
  | mul a b iha ihb =>
      intro var h
      simp only [containsSub, Bool.or_eq_false_iff] at h
      obtain ⟨da, hda⟩ := iha var h.1
      obtain ⟨db, hdb⟩ := ihb var h.2
      refine ⟨dvAdd (dvMul da (.expr b)) (dvMul db (.expr a)), ?_⟩
      simp only [differentiateT]
      rw [hda, hdb, diffChildren_ok]; rfl
  | div a b iha ihb =>
      intro var h
      simp only [containsSub, Bool.or_eq_false_iff] at h
      obtain ⟨da, hda⟩ := iha var h.1
      obtain ⟨db, hdb⟩ := ihb var h.2
      refine ⟨dvDiv (dvSub (dvMul da (.expr b)) (dvMul (.expr a) db))
        (.expr (.pow b (.number (.int 2)))), ?_⟩
      simp only [differentiateT]
      rw [hda, hdb, diffChildren_ok]; rfl
  | pow a b iha ihb =>
      intro var h
      simp only [containsSub, Bool.or_eq_false_iff] at h
      obtain ⟨da, hda⟩ := iha var h.1
      obtain ⟨db, hdb⟩ := ihb var h.2
      refine ⟨dvMul (dvMul da (.expr b)) (.expr (.pow a (.sub b (.number (.int 1))))), ?_⟩
      simp only [differentiateT]
      rw [hda, hdb, diffChildren_ok]; rfl

lemma diff_sub_error : ∀ (e : Expr) (var : String), containsSub e = true →
    differentiateT e var = .error (.notImplementedError "Cannot differentiate Sub") := by
  intro e
  induction e with
  | number v => intro var h; simp [containsSub] at h
  | symbol s => intro var h; simp [containsSub] at h
  | sub a b iha ihb =>
      intro var _
      simp only [differentiateT]
      cases ha : differentiateT a var with
      | error e1 =>
          rw [diffChildren_err_left, diff_error_shape a var e1 ha]
      | ok da =>
          cases hb : differentiateT b var with
          | error e2 => rw [diffChildren_err_right, diff_error_shape b var e2 hb]
          | ok db => rw [diffChildren_ok]; rfl
  | add a b iha ihb =>
      intro var h
      simp only [containsSub, Bool.or_eq_true] at h
      simp only [differentiateT]
      rcases h with h | h
      · rw [iha var h, diffChildren_err_left]
      · cases ha : differentiateT a var with
        | error e1 => rw [diffChildren_err_left, diff_error_shape a var e1 ha]
        | ok da => rw [ihb var h, diffChildren_err_right]
  | mul a b iha ihb =>
      intro var h
      simp only [containsSub, Bool.or_eq_true] at h
      simp only [differentiateT]
      rcases h with h | h
      · rw [iha var h, diffChildren_err_left]
      · cases ha : differentiateT a var with
        | error e1 => rw [diffChildren_err_left, diff_error_shape a var e1 ha]
        | ok da => rw [ihb var h, diffChildren_err_right]
  | div a b iha ihb =>
      intro var h
      simp only [containsSub, Bool.or_eq_true] at h
      simp only [differentiateT]
      rcases h with h | h
      · rw [iha var h, diffChildren_err_left]
      · cases ha : differentiateT a var with
        | error e1 => rw [diffChildren_err_left, diff_error_shape a var e1 ha]
        | ok da => rw [ihb var h, diffChildren_err_right]
  | pow a b iha ihb =>
      intro var h
      simp only [containsSub, Bool.or_eq_true] at h
      simp only [differentiateT]
      rcases h with h | h
      · rw [iha var h, diffChildren_err_left]
      · cases ha : differentiateT a var with
        | error e1 => rw [diffChildren_err_left, diff_error_shape a var e1 ha]
        | ok da => rw [ihb var h, diffChildren_err_right]

lemma dvAdd_isExpr (x y : DVal) : (dvAdd x y).isExpr = (x.isExpr || y.isExpr) := by
  cases x <;> cases y <;> rfl

lemma diff_isExpr_eq_containsMDP : ∀ (e : Expr) (var : String) (v : DVal),
    differentiateT e var = .ok v → v.isExpr = containsMDP e := by
  intro e
  induction e with
  | number w =>
      intro var v h
      simp only [differentiateT, diffStep, Except.ok.injEq] at h
      subst h; rfl
  | symbol s =>
      intro var v h
      simp only [differentiateT, diffStep, Except.ok.injEq] at h
      subst h; rfl
  | sub a b iha ihb =>
      intro var v h
      simp only [differentiateT] at h
      cases ha : differentiateT a var with
      | error e1 => rw [ha, diffChildren_err_left] at h; simp at h
      | ok da =>
          cases hb : differentiateT b var with
          | error e2 => rw [ha, hb, diffChildren_err_right] at h; simp at h
          | ok db => rw [ha, hb, diffChildren_ok] at h; simp [diffStep] at h
  | add a b iha ihb =>
      intro var v h
      simp only [differentiateT] at h
      cases ha : differentiateT a var with
      | error e1 => rw [ha, diffChildren_err_left] at h; simp at h
      | ok da =>
          cases hb : differentiateT b var with
          | error e2 => rw [ha, hb, diffChildren_err_right] at h; simp at h
          | ok db =>
              rw [ha, hb, diffChildren_ok] at h
              simp only [diffStep, Except.ok.injEq] at h
              subst h
              simp only [containsMDP]
              rw [dvAdd_isExpr, iha var da ha, ihb var db hb]
  | mul a b iha ihb =>
      intro var v h
      simp only [differentiateT] at h
      cases ha : differentiateT a var with
      | error e1 => rw [ha, diffChildren_err_left] at h; simp at h
      | ok da =>
          cases hb : differentiateT b var with
          | error e2 => rw [ha, hb, diffChildren_err_right] at h; simp at h
          | ok db =>
              rw [ha, hb, diffChildren_ok] at h
              simp only [diffStep, Except.ok.injEq] at h
              subst h
              cases da <;> cases db <;> rfl
  | div a b iha ihb =>
      intro var v h
      simp only [differentiateT] at h
      cases ha : differentiateT a var with
      | error e1 => rw [ha, diffChildren_err_left] at h; simp at h
      | ok da =>
          cases hb : differentiateT b var with
          | error e2 => rw [ha, hb, diffChildren_err_right] at h; simp at h
          | ok db =>
              rw [ha, hb, diffChildren_ok] at h
              simp only [diffStep, Except.ok.injEq] at h
              subst h
              cases da <;> cases db <;> rfl
  | pow a b iha ihb =>
      intro var v h
      simp only [differentiateT] at h
      cases ha : differentiateT a var with
      | error e1 => rw [ha, diffChildren_err_left] at h; simp at h
      | ok da =>
          cases hb : differentiateT b var with
          | error e2 => rw [ha, hb, diffChildren_err_right] at h; simp at h
          | ok db =>
              rw [ha, hb, diffChildren_ok] at h
              simp only [diffStep, Except.ok.injEq] at h
              subst h
              cases da <;> cases db <;> rfl

lemma diff_divpow_sub_in_result : ∀ (e : Expr) (var : String) (v : DVal),
    differentiateT e var = .ok v → containsDivPow e = true →
    ∃ d, v = .expr d ∧ containsSub d = true := by
  intro e
  induction e with
  | number w => intro var v h hdp; simp [containsDivPow] at hdp
  | symbol s => intro var v h hdp; simp [containsDivPow] at hdp
  | sub a b iha ihb =>
      intro var v h hdp
      rw [diff_sub_error (.sub a b) var rfl] at h
      simp at h
  | add a b iha ihb =>
      intro var v h hdp
      simp only [containsDivPow, Bool.or_eq_true] at hdp
      simp only [differentiateT] at h
      cases ha : differentiateT a var with
      | error e1 => rw [ha, diffChildren_err_left] at h; simp at h
      | ok da =>
          cases hb : differentiateT b var with
          | error e2 => rw [ha, hb, diffChildren_err_right] at h; simp at h
          | ok db =>
              rw [ha, hb, diffChildren_ok] at h
              simp only [diffStep, Except.ok.injEq] at h
              subst h
              rcases hdp with hdp | hdp
              · obtain ⟨d, hd, hds⟩ := iha var da ha hdp
                subst hd
                cases db with
                | float q => exact ⟨_, rfl, by simp [containsSub, hds]⟩
                | expr db2 => exact ⟨_, rfl, by simp [containsSub, hds]⟩
              · obtain ⟨d, hd, hds⟩ := ihb var db hb hdp
                subst hd
                cases da with
                | float q => exact ⟨_, rfl, by simp [containsSub, hds]⟩
                | expr da2 => exact ⟨_, rfl, by simp [containsSub, hds]⟩
  | mul a b iha ihb =>
      intro var v h hdp
      simp only [containsDivPow, Bool.or_eq_true] at hdp
      simp only [differentiateT] at h
      cases ha : differentiateT a var with
      | error e1 => rw [ha, diffChildren_err_left] at h; simp at h
      | ok da =>
          cases hb : differentiateT b var with
          | error e2 => rw [ha, hb, diffChildren_err_right] at h; simp at h
          | ok db =>
              rw [ha, hb, diffChildren_ok] at h
              simp only [diffStep, Except.ok.injEq] at h
              subst h
              rcases hdp with hdp | hdp
              · obtain ⟨d, hd, hds⟩ := iha var da ha hdp
                subst hd
                cases db with
                | float q => exact ⟨_, rfl, by simp [containsSub, hds]⟩
                | expr db2 => exact ⟨_, rfl, by simp [containsSub, hds]⟩
              · obtain ⟨d, hd, hds⟩ := ihb var db hb hdp
                subst hd
                cases da with
                | float q => exact ⟨_, rfl, by simp [containsSub, hds]⟩
                | expr da2 => exact ⟨_, rfl, by simp [containsSub, hds]⟩
  | div a b iha ihb =>
      intro var v h hdp
      simp only [differentiateT] at h
      cases ha : differentiateT a var with
      | error e1 => rw [ha, diffChildren_err_left] at h; simp at h
      | ok da =>
          cases hb : differentiateT b var with
          | error e2 => rw [ha, hb, diffChildren_err_right] at h; simp at h
          | ok db =>
              rw [ha, hb, diffChildren_ok] at h
              simp only [diffStep, Except.ok.injEq] at h
              subst h
              cases da <;> cases db <;> exact ⟨_, rfl, by simp [containsSub]⟩
  | pow a b iha ihb =>
      intro var v h hdp
      simp only [differentiateT] at h
      cases ha : differentiateT a var with
      | error e1 => rw [ha, diffChildren_err_left] at h; simp at h
      | ok da =>
          cases hb : differentiateT b var with
          | error e2 => rw [ha, hb, diffChildren_err_right] at h; simp at h
          | ok db =>
              rw [ha, hb, diffChildren_ok] at h
              simp only [diffStep, Except.ok.injEq] at h
              subst h
              cases da <;> exact ⟨_, rfl, by simp [containsSub]⟩

lemma pvStep_calls_inv (ops : Nat → List Nat) (fn : Nat → List V → V)
    (st : PVState V)
    (hst : ∀ p ∈ st.calls, p.2.length = (ops p.1).length ∧ ∀ a ∈ p.2, a.isSome = true) :
    ∀ p ∈ (pvStep ops fn st).calls,
      p.2.length = (ops p.1).length ∧ ∀ a ∈ p.2, a.isSome = true := by
  obtain ⟨stack, vis, calls⟩ := st
  cases stack with
  | nil => exact hst
  | cons e rest =>
      simp only [pvStep]
      by_cases hvc : ((ops e).filter fun o => (vis o).isNone) = []
      · rw [if_pos hvc]
        intro p hp
        simp only [List.mem_append, List.mem_singleton] at hp
        rcases hp with hp | hp
        · exact hst p hp
        · subst hp
          refine ⟨by simp, ?_⟩
          intro a ha
          simp only [List.mem_map] at ha
          obtain ⟨o, ho, rfl⟩ := ha
          have hno := List.filter_eq_nil_iff.mp hvc o ho
          simpa [Option.isNone_iff_eq_none, Option.isSome_iff_ne_none] using hno
      · rw [if_neg hvc]
        exact hst

lemma pvRun_calls_inv (ops : Nat → List Nat) (fn : Nat → List V → V) :
    ∀ (fuel : Nat) (st : PVState V),
      (∀ p ∈ st.calls, p.2.length = (ops p.1).length ∧ ∀ a ∈ p.2, a.isSome = true) →
      ∀ p ∈ (pvRun ops fn fuel st).calls,
        p.2.length = (ops p.1).length ∧ ∀ a ∈ p.2, a.isSome = true := by
  intro fuel
  induction fuel with
  | zero => intro st h; exact h
  | succ n ih =>
      intro st h
      rw [pvRun]
      by_cases hs : st.stack = []
      · rw [if_pos hs]; exact h
      · rw [if_neg hs]
        exact ih _ (pvStep_calls_inv ops fn st h)

/-- C1: the claim states that reduce (postvisitor) invokes the step
function exactly once per distinct node instance, so that with a single
shared Symbol instance x and e = mul(x, x) a counting step runs exactly
2 times. The code does not satisfy this: the loop collects the operand
tuple's unvisited entries with duplicates and pushes the shared x
twice, so x is popped and the step invoked on it twice, for 3
invocations in total (trace of invoked node identities [x, x, e], here
[0, 0, 1]), whatever the step function is. -/
theorem claim_C1_shared_node_call_count (V : Type) (fn : Nat → List V → V) :
    ((postvisitorRun opsSharedMul fn 1 10).calls).map Prod.fst = [0, 0, 1]
    ∧ ((postvisitorRun opsSharedMul fn 1 10).calls).length = 3 :=
  ⟨rfl, rfl⟩

/-- C2: post-order invariant of postvisitor: every invocation of the
step function recorded in the trace carries, for every operand of the
invoked node, a result already present in the cache at invocation time
(one cached entry per operand position, all defined); the loop passes
exactly these per-operand cached results, in operand order, to the
step function. Holds for every operand structure, step function, root
and fuel. -/
theorem claim_C2_post_order_invariant (V : Type) (ops : Nat → List Nat)
    (fn : Nat → List V → V) (root fuel : Nat) :
    ∀ p ∈ (postvisitorRun ops fn root fuel).calls,
      p.2.length = (ops p.1).length ∧ ∀ a ∈ p.2, a.isSome = true :=
  pvRun_calls_inv ops fn fuel (pvStart root)
    (fun p hp => absurd hp (List.not_mem_nil p))

theorem claim_C2_witness :
    ((1 : Nat), [some (), some ()]) ∈
      (postvisitorRun opsSharedMul (fun _ _ => ()) 1 10).calls
    ∧ ([some (), some ()] : List (Option Unit)).length = (opsSharedMul 1).length
    ∧ ∀ a ∈ ([some (), some ()] : List (Option Unit)), a.isSome = true := by
  have h := claim_C2_post_order_invariant Unit opsSharedMul (fun _ _ => ()) 1 10
    (1, [some (), some ()]) (by decide)
  exact ⟨by decide, h.1, h.2⟩

/-- C3: number(v) raises TypeError exactly when v is not numeric,
symbol(n) raises TypeError exactly when n is not a string, and on the
good inputs each constructor succeeds with a Terminal holding the given
value. -/
theorem claim_C3_construction_validation :
    ∀ v : PyVal,
      ((∃ msg, numberNew v = .error (.typeError msg)) ↔ v.isNumber = false)
      ∧ (v.isNumber = true → numberNew v = .ok (.number v))
      ∧ ((∃ msg, symbolNew v = .error (.typeError msg)) ↔ ∀ s, v ≠ .str s)
      ∧ (∀ s, v = .str s → symbolNew v = .ok (.symbol s)) := by
  intro v
  cases v <;> simp [numberNew, symbolNew, PyVal.isNumber]

theorem claim_C3_witness :
    numberNew (.int 3) = .ok (.number (.int 3))
    ∧ symbolNew (.str "x") = .ok (.symbol "x")
    ∧ (∃ msg, numberNew (.str "not a number") = .error (.typeError msg))
    ∧ (∃ msg, symbolNew (.int 42) = .error (.typeError msg)) :=
  ⟨(claim_C3_construction_validation (.int 3)).2.1 rfl,
   (claim_C3_construction_validation (.str "x")).2.2.2 "x" rfl,
   (claim_C3_construction_validation (.str "not a number")).1.mpr rfl,
   (claim_C3_construction_validation (.int 42)).2.2.1.mpr
     (fun _ h => PyVal.noConfusion h)⟩

/-- C4: for each of the five binary combinators, combining an
Expression with a raw numeric literal on either side lifts the literal
into a Number node and keeps the operands in written order: expr + 3
gives Add(expr, Number(3)) and 3 + expr gives Add(Number(3), expr),
and likewise for sub, mul, div and pow. -/
theorem claim_C4_literal_lifting (e : Expr) (v : PyVal) (h : v.isNumber = true) :
    pyAddOp (.expr e) (.raw v) = some (.add e (.number v))
    ∧ pyAddOp (.raw v) (.expr e) = some (.add (.number v) e)
    ∧ pySubOp (.expr e) (.raw v) = some (.sub e (.number v))
    ∧ pySubOp (.raw v) (.expr e) = some (.sub (.number v) e)
    ∧ pyMulOp (.expr e) (.raw v) = some (.mul e (.number v))
    ∧ pyMulOp (.raw v) (.expr e) = some (.mul (.number v) e)
    ∧ pyDivOp (.expr e) (.raw v) = some (.div e (.number v))
    ∧ pyDivOp (.raw v) (.expr e) = some (.div (.number v) e)
    ∧ pyPowOp (.expr e) (.raw v) = some (.pow e (.number v))
    ∧ pyPowOp (.raw v) (.expr e) = some (.pow (.number v) e) := by
  simp [pyAddOp, pySubOp, pyMulOp, pyDivOp, pyPowOp, h]

theorem claim_C4_witness :
    (PyVal.int 3).isNumber = true
    ∧ pyAddOp (.expr (.symbol "x")) (.raw (.int 3))
        = some (.add (.symbol "x") (.number (.int 3)))
    ∧ pyAddOp (.raw (.int 3)) (.expr (.symbol "x"))
        = some (.add (.number (.int 3)) (.symbol "x")) :=
  ⟨rfl, (claim_C4_literal_lifting (.symbol "x") (.int 3) rfl).1,
   (claim_C4_literal_lifting (.symbol "x") (.int 3) rfl).2.1⟩

/-- C5: render parenthesizes a child exactly when the child's
precedence is strictly lower than its parent's (renderSpec is that
rule transcribed from the spec), and the two precedence examples
render as stated. -/
theorem claim_C5_render_parenthesization :
    (∀ e : Expr, e.render = renderSpec e)
    ∧ Expr.render (.mul (.add (.symbol "x") (.symbol "y")) (.symbol "z")) = "(x + y) * z"
    ∧ Expr.render (.add (.mul (.symbol "x") (.symbol "y")) (.symbol "z")) = "x * y + z" := by
  refine ⟨?_, rfl, rfl⟩
  intro e
  induction e with
  | number v => rfl
  | symbol s => rfl
  | add a b iha ihb => simp [Expr.render, renderSpec, parensIfBelow, iha, ihb]
  | sub a b iha ihb => simp [Expr.render, renderSpec, parensIfBelow, iha, ihb]
  | mul a b iha ihb => simp [Expr.render, renderSpec, parensIfBelow, iha, ihb]
  | div a b iha ihb => simp [Expr.render, renderSpec, parensIfBelow, iha, ihb]
  | pow a b iha ihb => simp [Expr.render, renderSpec, parensIfBelow, iha, ihb]

/-- C6: differentiating a Number gives the plain float 0.0 for every
numeric value and variable; differentiating a Symbol gives 1.0 when
the name equals the variable and 0.0 otherwise. -/
theorem claim_C6_terminal_rules (v : PyVal) (s var : String) :
    (v.isNumber = true → differentiateT (.number v) var = .ok (.float 0))
    ∧ differentiateT (.symbol s) var = .ok (.float (if s = var then 1 else 0)) :=
  ⟨fun _ => rfl, rfl⟩

theorem claim_C6_witness :
    differentiateT (.number (.int 7)) "x" = .ok (.float 0)
    ∧ differentiateT (.symbol "x") "x" = .ok (.float (if "x" = "x" then 1 else 0))
    ∧ differentiateT (.symbol "y") "x" = .ok (.float (if "y" = "x" then 1 else 0)) :=
  ⟨(claim_C6_terminal_rules (.int 7) "x" "x").1 rfl,
   (claim_C6_terminal_rules (.int 7) "x" "x").2,
   (claim_C6_terminal_rules (.int 7) "y" "x").2⟩

/-- C7: the Mul differentiation step combines the original operand
expressions a and b with the already-reduced child results da and db
as (da * b) + (db * a), and for e = mul(symbol("x"), symbol("x")) the
rendered derivative is "1.0 * x + 1.0 * x". -/
theorem claim_C7_product_rule :
    (∀ (a b : Expr) (da db : DVal) (var : String),
        diffStep (.mul a b) [da, db] var =
          .ok (dvAdd (dvMul da (.expr b)) (dvMul db (.expr a))))
    ∧ diffRender (.mul (.symbol "x") (.symbol "x")) "x" = some "1.0 * x + 1.0 * x" :=
  ⟨fun _ _ _ _ _ => rfl, rfl⟩

/-- C8: differentiating any expression containing a Sub node raises
the dispatch failure naming the unhandled kind (NotImplementedError
"Cannot differentiate Sub"). -/
theorem claim_C8_sub_dispatch_error (e : Expr) (var : String)
    (h : containsSub e = true) :
    differentiateT e var = .error (.notImplementedError "Cannot differentiate Sub") :=
  diff_sub_error e var h

theorem claim_C8_witness :
    containsSub (.sub (.symbol "x") (.number (.int 1))) = true
    ∧ differentiateT (.sub (.symbol "x") (.number (.int 1))) "x"
        = .error (.notImplementedError "Cannot differentiate Sub") :=
  ⟨rfl, claim_C8_sub_dispatch_error (.sub (.symbol "x") (.number (.int 1))) "x" rfl⟩

lemma diff_add_const_eval :
    differentiateT (.add (.number (.int 3)) (.number (.int 5))) "x" = .ok (.float 0) := by
  simp [differentiateT, diffChildren, diffStep, dvAdd]

/-- C9 counterexample: differentiating add(number(3), number(5)) with
respect to "x" succeeds with the plain float 0.0 — not an Expression —
although the input is not a bare Number or Symbol terminal, refuting
the claim that only bare terminal inputs give a plain numeric result. -/
theorem claim_C9_counterexample :
    differentiateT (.add (.number (.int 3)) (.number (.int 5))) "x" = .ok (.float 0)
    ∧ (Expr.add (.number (.int 3)) (.number (.int 5))).isTerminalNode = false
    ∧ (DVal.float 0).isExpr = false :=
  ⟨diff_add_const_eval, rfl, rfl⟩

/-- C9 amended: for every input that differentiation succeeds on, the
result is structurally an Expression exactly when the input contains a
Mul, Div or Pow node; inputs built only from Number, Symbol and Add
nodes (in particular bare terminals) give a plain float. -/
theorem claim_C9_result_kind (e : Expr) (var : String) (v : DVal)
    (h : differentiateT e var = .ok v) :
    v.isExpr = containsMDP e :=
  diff_isExpr_eq_containsMDP e var v h

theorem claim_C9_witness :
    differentiateT (.add (.number (.int 3)) (.number (.int 5))) "x" = .ok (.float 0)
    ∧ (DVal.float 0).isExpr = containsMDP (.add (.number (.int 3)) (.number (.int 5))) :=
  ⟨diff_add_const_eval,
   claim_C9_result_kind (.add (.number (.int 3)) (.number (.int 5))) "x" (.float 0)
     diff_add_const_eval⟩

/-- C10: whenever differentiation succeeds on an expression containing
a Div or Pow node, the returned derivative is an Expression containing
a Sub node (the quotient rule's numerator subtraction, respectively
the power rule's decremented exponent b - 1), so differentiating the
derivative again fails with the unregistered-rule dispatch error. -/
theorem claim_C10_derivative_contains_sub (e : Expr) (var var2 : String) (v : DVal)
    (h : differentiateT e var = .ok v) (hdp : containsDivPow e = true) :
    ∃ d, v = .expr d ∧ containsSub d = true ∧
      differentiateT d var2 = .error (.notImplementedError "Cannot differentiate Sub") := by
  obtain ⟨d, hd, hds⟩ := diff_divpow_sub_in_result e var v h hdp
  exact ⟨d, hd, hds, diff_sub_error d var2 hds⟩

/-- The input x ** 2 of the C10 witness. -/
def exPow : Expr := .pow (.symbol "x") (.number (.int 2))

/-- The derivative value differentiate produces for x ** 2:
1.0 * 2 * x ^ (2 - 1), whose exponent holds a Sub node. -/
def exPowD : DVal :=
  .expr (.mul (.mul (.number (.float 1)) (.number (.int 2)))
    (.pow (.symbol "x") (.sub (.number (.int 2)) (.number (.int 1)))))

theorem claim_C10_witness :
    differentiateT exPow "x" = .ok exPowD
    ∧ containsDivPow exPow = true
    ∧ ∃ d, exPowD = .expr d ∧ containsSub d = true ∧
        differentiateT d "x" = .error (.notImplementedError "Cannot differentiate Sub") :=
  ⟨rfl, rfl, claim_C10_derivative_contains_sub exPow "x" "x" exPowD rfl rfl⟩

end Expressions
